import Mathlib

/-!
# Verification of the Service-App date / calendar logic

A shallow embedding, in Lean 4, of the pure logic of the Service-App
repository:

* the date-format codec of `src/screens/Customer.jsx`
  (`formatDateForInput`, `formatDateForStorage`), together with the
  CSV-import row shaping (`handleFileUpload`), the edit-form submission
  (`onSubmit`) and the prefix-search predicate (`handleSearch`);
* the calendar derivations of the Dashboard screen
  (`jobDates`, `jobsForSelectedDate`, `handleBlackoutToggle`,
  `tileClassName`), which are built on JavaScript `Date` semantics
  (`new Date(year, monthIndex, day)` followed by `toDateString()`).

JavaScript strings are modelled as `List Char`.  `String.prototype.split`
on a one-character separator, `String.prototype.includes`,
`String.prototype.padStart` and string concatenation are embedded
directly; `Array.prototype.filter`, `includes` and spreads become the
corresponding `List` operations.
-/

/-- JavaScript strings, modelled as lists of characters. -/
abbrev JStr := List Char

/-- Helper for `splitOnChar`: returns the chunk before the first
separator together with the list of the remaining chunks.  Mirrors the
recursion of JavaScript `String.prototype.split` with a one-character
separator. -/
def splitOnCharAux (sep : Char) : JStr → JStr × List JStr
  | [] => ([], [])
  | c :: rest =>
    let r := splitOnCharAux sep rest
    if c = sep then ([], r.1 :: r.2) else (c :: r.1, r.2)

/-- JavaScript `s.split(sep)` for a one-character separator `sep`:
`"a/b".split("/") = ["a","b"]`, `"".split("/") = [""]`,
`"/".split("/") = ["",""]`. -/
def splitOnChar (sep : Char) (cs : JStr) : List JStr :=
  (splitOnCharAux sep cs).1 :: (splitOnCharAux sep cs).2

/-- Inverse of `splitOnChar`: interleave the separator between the
chunks. -/
def joinParts (sep : Char) : List JStr → JStr
  | [] => []
  | [p] => p
  | p :: ps => p ++ sep :: joinParts sep ps

/-- JavaScript `s.padStart(2, "0")`. -/
def padStart2 (s : JStr) : JStr :=
  if 2 ≤ s.length then s else List.replicate (2 - s.length) '0' ++ s

/-- Numeric value of a digit string (most significant digit first). -/
def natFromDigits (s : JStr) : Nat :=
  s.foldl (fun acc c => acc * 10 + (c.toNat - 48)) 0

/-- The string a JavaScript template literal prints for `undefined`;
it appears when destructuring a `split` result that has too few parts. -/
def undefinedLit : JStr := ['u', 'n', 'd', 'e', 'f', 'i', 'n', 'e', 'd']

/-- `formatDateForInput` from `src/screens/Customer.jsx` (lines 47–51):
converts `MM/DD/YYYY` to `YYYY-MM-DD`, zero-padding month and day to
width 2; empty or slash-free inputs pass through unchanged.  A missing
third component stringifies as `undefined`, as in JavaScript. -/
def formatDateForInput (dateStr : JStr) : JStr :=
  if dateStr = [] ∨ '/' ∉ dateStr then dateStr
  else
    let parts := splitOnChar '/' dateStr
    let month := parts.getD 0 []
    let day := parts.getD 1 []
    let year := parts.getD 2 undefinedLit
    year ++ '-' :: (padStart2 month ++ '-' :: padStart2 day)

/-- `formatDateForStorage` from `src/screens/Customer.jsx`
(lines 54–58): converts `YYYY-MM-DD` to `MM/DD/YYYY` (no padding or
unpadding); empty or dash-free inputs pass through unchanged. -/
def formatDateForStorage (dateStr : JStr) : JStr :=
  if dateStr = [] ∨ '-' ∉ dateStr then dateStr
  else
    let parts := splitOnChar '-' dateStr
    let year := parts.getD 0 []
    let month := parts.getD 1 undefinedLit
    let day := parts.getD 2 undefinedLit
    month ++ '/' :: (day ++ '/' :: year)

/-- A nonempty all-digit string. -/
def isDigitStr (s : JStr) : Bool :=
  decide (s ≠ []) && s.all Char.isDigit

/-- A well-formed stored date in the sense of the specification:
splitting on `/` yields month, day and year components that are digit
strings, the month and day being one or two digits with values in
`1..12` and `1..31` respectively, and the year four digits. -/
def wellFormedStored (s : JStr) : Bool :=
  match splitOnChar '/' s with
  | [m, d, y] =>
    isDigitStr m && decide (m.length ≤ 2) &&
    decide (1 ≤ natFromDigits m) && decide (natFromDigits m ≤ 12) &&
    isDigitStr d && decide (d.length ≤ 2) &&
    decide (1 ≤ natFromDigits d) && decide (natFromDigits d ≤ 31) &&
    isDigitStr y && decide (y.length = 4)
  | _ => false

/-- A well-formed stored date whose month and day are both written with
exactly two digits (zero-padded). -/
def wellFormedStoredPadded (s : JStr) : Bool :=
  wellFormedStored s &&
  (match splitOnChar '/' s with
   | [m, d, _] => decide (m.length = 2) && decide (d.length = 2)
   | _ => false)

/-!
## JavaScript `Date` day keys

The Dashboard identifies a calendar day by
`new Date(year, month - 1, day).toDateString()`.  The constructor
normalises out-of-range fields by calendar arithmetic (month 12 of 2024
is January 2025, day 40 of a month overflows into the following
months), maps years `0..99` to `1900..1999`, and produces an *Invalid
Date* when any argument is `NaN`.  `toDateString()` renders a valid
date as e.g. `"Sun Feb 09 2025"` — a string determined by, and
determining, the (year, month, day) triple (the weekday is a function
of the triple) — and renders every invalid date as `"Invalid Date"`.
We therefore model the result of `toDateString()` as `JSDateKey`:
either `invalid` or a normalised civil triple.  (The finite
±8.64·10^15 ms range limit of JavaScript dates is not modelled; the
dates manipulated by the application are far inside it.)
The civil-from-days / days-from-civil conversions are the standard
proleptic-Gregorian algorithms.
-/

/-- The value of `date.toDateString()`: either `"Invalid Date"` or a
rendering of the normalised civil date (`month` is 1-based). -/
inductive JSDateKey where
  | invalid : JSDateKey
  | valid (year : Int) (month : Nat) (day : Nat) : JSDateKey
deriving DecidableEq, Repr

/-- Day-of-year offset (0-based, March-based year) of the first day of
month `m` (1-based). -/
def doyOfMonth (m : Nat) : Nat :=
  (153 * (if 2 < m then m - 3 else m + 9) + 2) / 5

/-- Days since 1970-01-01 of the first day of month `m` (1-based) of
year `y`, proleptic Gregorian. -/
def daysFromCivilFirst (y : Int) (m : Nat) : Int :=
  let ys : Int := if m ≤ 2 then y - 1 else y
  let era : Int := Int.fdiv ys 400
  let yoe : Nat := (ys - era * 400).toNat
  let doe : Nat := yoe * 365 + yoe / 4 - yoe / 100 + doyOfMonth m
  era * 146097 + (doe : Int) - 719468

/-- Civil date (year, 1-based month, day) of the day `z` days after
1970-01-01, proleptic Gregorian. -/
def civilFromDays (z : Int) : Int × Nat × Nat :=
  let z := z + 719468
  let era : Int := Int.fdiv z 146097
  let doe : Nat := (z - era * 146097).toNat
  let yoe : Nat := (doe - doe / 1460 + doe / 36524 - doe / 146096) / 365
  let y : Int := (yoe : Int) + era * 400
  let doy : Nat := doe - (365 * yoe + yoe / 4 - yoe / 100)
  let mp : Nat := (5 * doy + 2) / 153
  let d : Nat := doy - (153 * mp + 2) / 5 + 1
  let m : Nat := if mp < 10 then mp + 3 else mp - 9
  (y + (if m ≤ 2 then 1 else 0), m, d)

/-- `new Date(year, monthIndex, day).toDateString()` for numeric
(non-`NaN`) arguments: apply the 1900 rule for years `0..99`, then
normalise month and day by calendar arithmetic. -/
def mkJSDate (year monthIdx day : Int) : JSDateKey :=
  let year : Int := if 0 ≤ year ∧ year ≤ 99 then year + 1900 else year
  let ym : Int := year * 12 + monthIdx
  let y : Int := Int.fdiv ym 12
  let m : Nat := (ym - y * 12).toNat + 1
  let days : Int := daysFromCivilFirst y m + (day - 1)
  let c := civilFromDays days
  JSDateKey.valid c.1 c.2.1 c.2.2

/-- JavaScript string-to-number coercion, for the fragment of inputs
the Dashboard can meet: the empty string coerces to `0`, a digit string
to its value, and any other string to `NaN` (`none`). -/
def jsToNumber (s : JStr) : Option Int :=
  if s = [] then some 0
  else if s.all Char.isDigit then some (natFromDigits s) else none

/-- Coercion of a possibly-`undefined` string (`undefined` is `NaN`). -/
def jsToNumberOpt (s : Option JStr) : Option Int :=
  s.bind jsToNumber

/-- The day key the Dashboard computes from a date string `s`:
`const [month, day, year] = s.split("/");
new Date(year, month - 1, day).toDateString()`
(`src/unnamed/part_000`, lines 89–106).  A `NaN` anywhere gives the
`"Invalid Date"` key. -/
def toDateKey (s : JStr) : JSDateKey :=
  let parts := splitOnChar '/' s
  match jsToNumberOpt (parts.get? 2), jsToNumberOpt (parts.get? 0),
      jsToNumberOpt (parts.get? 1) with
  | some y, some m, some d => mkJSDate y (m - 1) d
  | _, _, _ => JSDateKey.invalid

/-- The specification's `toDayKey`: the Dashboard guards the
computation with `if (job.date)`, so an empty (falsy) string yields
`null` and every other string yields a day key. -/
def toDayKey (s : JStr) : Option JSDateKey :=
  if s = [] then none else some (toDateKey s)

/-- A job record as the Dashboard sees it.  `date` and `completed` may
be absent from the stored document (`none`); the remaining fields are
plain strings. -/
structure Job where
  id : JStr
  name : JStr
  email : JStr
  phone : JStr
  address : JStr
  info : JStr
  price : JStr
  date : Option JStr
  completed : Option Bool
deriving DecidableEq, Repr

/-- Per-job day key: `null` when `job.date` is absent or empty (falsy),
otherwise the computed key.  This is the body of the `map` inside
`jobDates` (`src/unnamed/part_000`, lines 89–97). -/
def jobDateKey (job : Job) : Option JSDateKey :=
  match job.date with
  | some s => if s = [] then none else some (toDateKey s)
  | none => none

/-- `jobDates` (`src/unnamed/part_000`, lines 89–97): the day keys of
all jobs with a truthy `date`, nulls filtered out (`filter(Boolean)`;
note the `"Invalid Date"` key is a truthy string and is kept). -/
def jobDates (jobs : List Job) : List JSDateKey :=
  jobs.filterMap jobDateKey

/-- `jobsForSelectedDate` (`src/unnamed/part_000`, lines 99–106):
keep the jobs with a truthy `date` whose key equals the selected
day's key. -/
def jobsForSelectedDate (jobs : List Job) (selected : JSDateKey) : List Job :=
  jobs.filter (fun job =>
    match job.date with
    | some s => if s = [] then false else decide (toDateKey s = selected)
    | none => false)

/-- Outcome of a calendar-day click: the new blackout list and whether
the conflict alert (`BlackoutConflict`) was shown. -/
structure ToggleOutcome where
  blackoutDates : List JSDateKey
  conflictAlert : Bool
deriving DecidableEq, Repr

/-- `handleBlackoutToggle` (`src/unnamed/part_000`, lines 108–130):
only a Ctrl+click does anything; a day present in `jobDates` is
rejected with an alert and the list is untouched; otherwise membership
of the day is flipped (removal removes every occurrence, addition
appends at the end). -/
def handleBlackoutToggle (ctrlKey : Bool) (clicked : JSDateKey)
    (jobDatesList blackoutDates : List JSDateKey) : ToggleOutcome :=
  if ctrlKey then
    if clicked ∈ jobDatesList then
      { blackoutDates := blackoutDates, conflictAlert := true }
    else if clicked ∈ blackoutDates then
      { blackoutDates := blackoutDates.filter (fun d => decide (d ≠ clicked)),
        conflictAlert := false }
    else
      { blackoutDates := blackoutDates ++ [clicked], conflictAlert := false }
  else
    { blackoutDates := blackoutDates, conflictAlert := false }

/-- The CSS class `tileClassName` returns, `noneClass` standing for the
JavaScript `null`. -/
inductive DayClassification where
  | todayClass : DayClassification
  | blackoutClass : DayClassification
  | hasJobsClass : DayClassification
  | noneClass : DayClassification
deriving DecidableEq, Repr

/-- The calendar views `react-calendar` can ask a tile class for. -/
inductive CalendarView where
  | month : CalendarView
  | year : CalendarView
  | decade : CalendarView
  | century : CalendarView
deriving DecidableEq, Repr

/-- `tileClassName` (`src/unnamed/part_000`, lines 132–148): in the
month view, `today` when the day equals today, else `blackout` when it
is a blackout day, else `highlight` (has jobs) when it is a job day,
else `null`; in any other view, `null`. -/
def tileClassName (view : CalendarView) (day todayKey : JSDateKey)
    (blackoutDates jobDatesList : List JSDateKey) : DayClassification :=
  if view = CalendarView.month then
    if day = todayKey then DayClassification.todayClass
    else if day ∈ blackoutDates then DayClassification.blackoutClass
    else if day ∈ jobDatesList then DayClassification.hasJobsClass
    else DayClassification.noneClass
  else DayClassification.noneClass

/-!
## Prefix search (`handleSearch`, `src/screens/Customer.jsx` 15–36)

The store (Firestore) compares strings lexicographically; `<=` and
`>=` on strings are the lexicographic comparisons.  `strLt` / `strLe`
embed that comparison on `List Char`.
-/

/-- Strict lexicographic comparison of strings by character code. -/
def strLt : JStr → JStr → Bool
  | [], [] => false
  | [], _ :: _ => true
  | _ :: _, [] => false
  | a :: as, b :: bs =>
    if a < b then true else if b < a then false else strLt as bs

/-- Lexicographic `<=` on strings. -/
def strLe (a b : JStr) : Bool :=
  strLt a b || decide (a = b)

/-- The `""` sentinel appended to the search input (the highest
code point in Firestore's private-use-area idiom). -/
def sentinelChar : Char := Char.ofNat 0xF8FF

/-- The predicate the two `where` clauses of `handleSearch` impose on a
job's `name`: `name >= input` and `name <= input + ""`. -/
def searchMatches (input name : JStr) : Bool :=
  strLe input name && strLe name (input ++ [sentinelChar])

/-- `handleSearch` (`src/screens/Customer.jsx`, lines 15–36): for a
nonempty input the store returns the jobs satisfying both range
clauses; for an empty input no query is issued and the match list is
cleared. -/
def handleSearch (input : JStr) (storeJobs : List Job) : List Job :=
  if 0 < input.length then
    storeJobs.filter (fun job => searchMatches input job.name)
  else []

/-- Modelled from the spec: the half-open-interval selection the
specification describes for the prefix search contract (§6) — `name`
lexically in `[p, p + MAX_UNICODE_SENTINEL)`, i.e. `name >= p` and
`name` strictly below `p` followed by the sentinel.  Stated for
comparison with the source predicate `searchMatches`. -/
def specSearchHalfOpen (p name : JStr) : Bool :=
  strLe p name && strLt name (p ++ [sentinelChar])

/-!
## CSV import (`handleFileUpload`, `src/screens/Customer.jsx` 84–116)
and form submission (`onSubmit`, lines 61–81)
-/

/-- A parsed CSV row (`Papa.parse` with `header: true`): a column
missing from the file is `undefined` (`none`). -/
structure CsvRow where
  id : Option JStr
  name : Option JStr
  email : Option JStr
  phone : Option JStr
  address : Option JStr
  info : Option JStr
  price : Option JStr
  date : Option JStr
  completed : Option JStr
deriving DecidableEq, Repr

/-- The document stored for one CSV row. -/
structure ImportedJob where
  id : JStr
  name : Option JStr
  email : Option JStr
  phone : Option JStr
  address : Option JStr
  info : Option JStr
  price : Option JStr
  date : Option JStr
  completed : Bool
deriving DecidableEq, Repr

/-- The literal string `"true"`. -/
def trueLit : JStr := ['t', 'r', 'u', 'e']

/-- The per-row body of `handleFileUpload` (lines 94–104):
`docId = row.id || uuidv4()` (a falsy — absent or empty — `id` is
replaced by the fresh identifier `freshId`), the date is passed through
`formatDateForStorage` (an absent date stays absent), and
`completed = (row.completed === "true") || false`. -/
def importRow (freshId : JStr) (row : CsvRow) : ImportedJob :=
  let docId := match row.id with
    | some s => if s = [] then freshId else s
    | none => freshId
  { id := docId
    name := row.name
    email := row.email
    phone := row.phone
    address := row.address
    info := row.info
    price := row.price
    date := row.date.map formatDateForStorage
    completed := decide (row.completed = some trueLit) }

/-- The values of the edit form at submission time.  `handleJobClick`
copies every field of the selected job into the form (including
`completed` when present), and the user can rewrite the text fields. -/
structure EditFormData where
  name : JStr
  email : JStr
  phone : JStr
  address : JStr
  info : JStr
  price : JStr
  date : JStr
  completed : Option Bool
deriving DecidableEq, Repr

/-- The document written by the update. -/
structure UpdatedJobData where
  name : JStr
  email : JStr
  phone : JStr
  address : JStr
  info : JStr
  price : JStr
  date : JStr
  completed : Bool
deriving DecidableEq, Repr

/-- `onSubmit` (`src/screens/Customer.jsx`, lines 61–81): spread the
form data, overwrite `date` with its storage form and `completed` with
`selectedJob.completed || false` — the spread order makes the stored
`completed` come from the previously loaded job, never from the
form. -/
def onSubmitUpdate (selectedJob : Job) (data : EditFormData) : UpdatedJobData :=
  { name := data.name
    email := data.email
    phone := data.phone
    address := data.address
    info := data.info
    price := data.price
    date := formatDateForStorage data.date
    completed := selectedJob.completed.getD false }

/-!
## Lemmas about `splitOnChar` and `joinParts`
-/

theorem splitOnCharAux_of_not_mem {sep : Char} {cs : JStr} (h : sep ∉ cs) :
    splitOnCharAux sep cs = (cs, []) := by
  induction cs with
  | nil => rfl
  | cons c rest ih =>
    rw [List.mem_cons, not_or] at h
    have hcs : ¬ c = sep := fun hc => h.1 hc.symm
    simp [splitOnCharAux, ih h.2, hcs]

theorem splitOnCharAux_append {sep : Char} {a : JStr} (rest : JStr)
    (h : sep ∉ a) :
    splitOnCharAux sep (a ++ sep :: rest) =
      (a, (splitOnCharAux sep rest).1 :: (splitOnCharAux sep rest).2) := by
  induction a with
  | nil => simp [splitOnCharAux]
  | cons c as ih =>
    rw [List.mem_cons, not_or] at h
    have hcs : ¬ c = sep := fun hc => h.1 hc.symm
    simp [splitOnCharAux, ih h.2, hcs]

theorem splitOnChar_three {sep : Char} {m d y : JStr}
    (hm : sep ∉ m) (hd : sep ∉ d) (hy : sep ∉ y) :
    splitOnChar sep (m ++ sep :: (d ++ sep :: y)) = [m, d, y] := by
  unfold splitOnChar
  rw [splitOnCharAux_append _ hm, splitOnCharAux_append _ hd,
    splitOnCharAux_of_not_mem hy]

theorem joinParts_cons_cons (sep : Char) (c : Char) (p : JStr)
    (ps : List JStr) :
    joinParts sep ((c :: p) :: ps) = c :: joinParts sep (p :: ps) := by
  cases ps <;> rfl

theorem joinParts_splitOnChar (sep : Char) (cs : JStr) :
    joinParts sep (splitOnChar sep cs) = cs := by
  unfold splitOnChar
  induction cs with
  | nil => rfl
  | cons c rest ih =>
    by_cases hc : c = sep
    · subst hc
      simp only [splitOnCharAux]
      simpa [joinParts] using ih
    · simp only [splitOnCharAux, hc, if_false]
      rw [joinParts_cons_cons]
      exact congrArg (c :: ·) ih

/-!
## Lemmas for the date-codec round trip
-/

theorem char_not_mem_of_all_isDigit {s : JStr} (h : s.all Char.isDigit = true)
    {c : Char} (hc : c.isDigit = false) : c ∉ s := by
  intro hmem
  simp only [List.all_eq_true] at h
  have := h c hmem
  rw [hc] at this
  exact Bool.false_ne_true this

theorem padStart2_of_length_two {s : JStr} (h : s.length = 2) :
    padStart2 s = s := by
  simp [padStart2, h]

theorem formatDateForInput_components {m d y : JStr}
    (hm2 : m.length = 2) (hd2 : d.length = 2)
    (hm : '/' ∉ m) (hd : '/' ∉ d) (hy : '/' ∉ y) :
    formatDateForInput (m ++ '/' :: (d ++ '/' :: y))
      = y ++ '-' :: (m ++ '-' :: d) := by
  have hne : ¬ (m ++ '/' :: (d ++ '/' :: y) = []
      ∨ '/' ∉ m ++ '/' :: (d ++ '/' :: y)) := by
    push_neg
    exact ⟨by simp, by simp⟩
  unfold formatDateForInput
  rw [if_neg hne, splitOnChar_three hm hd hy]
  simp [padStart2_of_length_two hm2, padStart2_of_length_two hd2]

theorem formatDateForStorage_components {m d y : JStr}
    (hm : '-' ∉ m) (hd : '-' ∉ d) (hy : '-' ∉ y) :
    formatDateForStorage (y ++ '-' :: (m ++ '-' :: d))
      = m ++ '/' :: (d ++ '/' :: y) := by
  have hne : ¬ (y ++ '-' :: (m ++ '-' :: d) = []
      ∨ '-' ∉ y ++ '-' :: (m ++ '-' :: d)) := by
    push_neg
    exact ⟨by simp, by simp⟩
  unfold formatDateForStorage
  rw [if_neg hne, splitOnChar_three hy hm hd]
  simp

theorem wellFormedStoredPadded_elim {s : JStr}
    (h : wellFormedStoredPadded s = true) :
    ∃ m d y, s = m ++ '/' :: (d ++ '/' :: y) ∧
      m.length = 2 ∧ d.length = 2 ∧
      m.all Char.isDigit = true ∧ d.all Char.isDigit = true ∧
      y.all Char.isDigit = true := by
  unfold wellFormedStoredPadded wellFormedStored at h
  have hjoin := joinParts_splitOnChar '/' s
  cases hsplit : splitOnChar '/' s with
  | nil => rw [hsplit] at h; simp at h
  | cons m rest =>
    cases rest with
    | nil => rw [hsplit] at h; simp at h
    | cons d rest2 =>
      cases rest2 with
      | nil => rw [hsplit] at h; simp at h
      | cons y rest3 =>
        cases rest3 with
        | cons q qs => rw [hsplit] at h; simp at h
        | nil =>
          rw [hsplit] at h hjoin
          simp only [Bool.and_eq_true, decide_eq_true_eq, isDigitStr] at h
          refine ⟨m, d, y, ?_, by tauto, by tauto, by tauto, by tauto, by tauto⟩
          rw [← hjoin]
          simp [joinParts]

/-!
## Claim C1
-/

/-- C1 (amended): for every well-formed `MM/DD/YYYY` date string whose
month and day are written with exactly two digits (zero-padded),
converting to display form (`formatDateForInput`) and back to storage
form (`formatDateForStorage`) returns the original string.  (For
single-digit, unpadded month or day the round trip zero-pads and does
not return the original string — see the counterexample.) -/
theorem C1_roundtrip_padded (s : JStr)
    (h : wellFormedStoredPadded s = true) :
    formatDateForStorage (formatDateForInput s) = s := by
  obtain ⟨m, d, y, hs, hm2, hd2, hmdig, hddig, hydig⟩ :=
    wellFormedStoredPadded_elim h
  have hslash : ('/' : Char).isDigit = false := by decide
  have hdash : ('-' : Char).isDigit = false := by decide
  rw [hs,
    formatDateForInput_components hm2 hd2
      (char_not_mem_of_all_isDigit hmdig hslash)
      (char_not_mem_of_all_isDigit hddig hslash)
      (char_not_mem_of_all_isDigit hydig hslash),
    formatDateForStorage_components
      (char_not_mem_of_all_isDigit hmdig hdash)
      (char_not_mem_of_all_isDigit hddig hdash)
      (char_not_mem_of_all_isDigit hydig hdash)]

/-- C1, counterexample to the claim as stated: `"1/5/2024"` is a
well-formed `MM/DD/YYYY` string with single-digit (unpadded) month and
day, yet the round trip returns `"01/05/2024"`, not the original
string. -/
theorem C1_roundtrip_counterexample :
    wellFormedStored "1/5/2024".toList = true ∧
    formatDateForStorage (formatDateForInput "1/5/2024".toList)
      = "01/05/2024".toList ∧
    formatDateForStorage (formatDateForInput "1/5/2024".toList)
      ≠ "1/5/2024".toList := by
  decide

/-- Witness for `C1_roundtrip_padded` at the concrete input
`"01/05/2024"`. -/
theorem C1_roundtrip_padded_witness :
    formatDateForStorage (formatDateForInput "01/05/2024".toList)
      = "01/05/2024".toList :=
  C1_roundtrip_padded "01/05/2024".toList (by decide)

/-!
## Sample jobs used as concrete inputs
-/

/-- A job record with the given name and date and neutral remaining
fields. -/
def sampleJob (nm : JStr) (dt : Option JStr) : Job :=
  { id := ['x'], name := nm, email := [], phone := [], address := [],
    info := [], price := [], date := dt, completed := none }

/-- A job dated `"01/05/2024"`. -/
def jobJan5 : Job := sampleJob ['j'] (some "01/05/2024".toList)

/-- A job dated `"13/40/2024"` (month and day out of range). -/
def rolloverJob : Job := sampleJob ['r'] (some "13/40/2024".toList)

/-- A job whose `date` field is the empty string. -/
def emptyDateJob : Job := sampleJob ['e'] (some [])

/-!
## Claim C2
-/

/-- C2 (amended): `toDayKey` returns `null` exactly for the empty
string (the code only guards on falsiness); jobs whose `date` yields a
`null` key appear in no selected day's job list; and every key on the
calendar comes from some job with a non-`null` key.  Non-empty
malformed strings do *not* return `null`: out-of-range month/day rolls
over to a real calendar day (see the counterexample), and non-numeric
strings yield the `"Invalid Date"` key, which matches no real calendar
day. -/
theorem C2_toDayKey_null :
    (∀ s : JStr, toDayKey s = none ↔ s = []) ∧
    (∀ (jobs : List Job) (sel : JSDateKey) (job : Job),
      jobDateKey job = none → job ∉ jobsForSelectedDate jobs sel) ∧
    (∀ (jobs : List Job) (k : JSDateKey),
      k ∈ jobDates jobs → ∃ job, job ∈ jobs ∧ jobDateKey job = some k) := by
  refine ⟨fun s => ?_, fun jobs sel job hkey hmem => ?_, fun jobs k hk => ?_⟩
  · by_cases h : s = [] <;> simp [toDayKey, h]
  · rw [jobsForSelectedDate, List.mem_filter] at hmem
    obtain ⟨-, hpred⟩ := hmem
    unfold jobDateKey at hkey
    cases hd : job.date with
    | none => rw [hd] at hpred; simp at hpred
    | some s =>
      rw [hd] at hpred hkey
      by_cases hs : s = []
      · simp [hs] at hpred
      · simp [hs] at hkey
  · rw [jobDates, List.mem_filterMap] at hk
    exact hk

/-- C2, counterexample to the claim as stated: `"13/40/2024"` has an
invalid month and day, yet `toDayKey` does not return `null` — the
JavaScript `Date` constructor rolls it over to February 9, 2025, and a
job carrying that date appears both on the calendar (`jobDates`) and in
the job list of that day (`jobsForSelectedDate`). -/
theorem C2_toDayKey_counterexample :
    toDayKey "13/40/2024".toList = some (JSDateKey.valid 2025 2 9) ∧
    toDayKey "13/40/2024".toList ≠ none ∧
    JSDateKey.valid 2025 2 9 ∈ jobDates [rolloverJob] ∧
    rolloverJob ∈ jobsForSelectedDate [rolloverJob] (JSDateKey.valid 2025 2 9) := by
  decide

/-- Witness for `C2_toDayKey_null` at concrete inputs: the empty string
maps to `none`, and a job with an empty date string is excluded from
the job list of a concrete day. -/
theorem C2_toDayKey_null_witness :
    toDayKey [] = none ∧
    emptyDateJob ∉ jobsForSelectedDate [emptyDateJob] (JSDateKey.valid 2024 1 5) :=
  ⟨(C2_toDayKey_null.1 []).mpr rfl,
    C2_toDayKey_null.2.1 [emptyDateJob] (JSDateKey.valid 2024 1 5) emptyDateJob
      (by decide)⟩

/-!
## Claim C3
-/

/-- C3: in the month view, `tileClassName` classifies a day as `today`
when it equals today (even when the day is also a blackout or job day),
otherwise `blackout` when it is in the blackout list, otherwise
`hasJobs` (`highlight`) when it is in the job-day list, otherwise
`none` — the precedence `today > blackout > hasJobs > none` is
fixed. -/
theorem C3_tileClassName_precedence (d t : JSDateKey)
    (B J : List JSDateKey) :
    (d = t →
      tileClassName CalendarView.month d t B J = DayClassification.todayClass) ∧
    (d ≠ t → d ∈ B →
      tileClassName CalendarView.month d t B J = DayClassification.blackoutClass) ∧
    (d ≠ t → d ∉ B → d ∈ J →
      tileClassName CalendarView.month d t B J = DayClassification.hasJobsClass) ∧
    (d ≠ t → d ∉ B → d ∉ J →
      tileClassName CalendarView.month d t B J = DayClassification.noneClass) := by
  refine ⟨fun h => ?_, fun h hB => ?_, fun h hB hJ => ?_, fun h hB hJ => ?_⟩ <;>
    simp_all [tileClassName]

/-- Witness for `C3_tileClassName_precedence`: all four branches at
concrete inputs; in particular the spec example
`classify(today, today, {}, {today}) = today`, here strengthened with
the day also in the blackout list. -/
theorem C3_tileClassName_witness :
    tileClassName CalendarView.month (JSDateKey.valid 2024 1 5)
      (JSDateKey.valid 2024 1 5) [JSDateKey.valid 2024 1 5]
      [JSDateKey.valid 2024 1 5] = DayClassification.todayClass ∧
    tileClassName CalendarView.month (JSDateKey.valid 2024 1 6)
      (JSDateKey.valid 2024 1 5) [JSDateKey.valid 2024 1 6]
      [JSDateKey.valid 2024 1 6] = DayClassification.blackoutClass ∧
    tileClassName CalendarView.month (JSDateKey.valid 2024 1 6)
      (JSDateKey.valid 2024 1 5) [] [JSDateKey.valid 2024 1 6]
      = DayClassification.hasJobsClass ∧
    tileClassName CalendarView.month (JSDateKey.valid 2024 1 6)
      (JSDateKey.valid 2024 1 5) [] [] = DayClassification.noneClass :=
  ⟨(C3_tileClassName_precedence _ _ _ _).1 rfl,
    (C3_tileClassName_precedence _ _ _ _).2.1 (by decide) (by decide),
    (C3_tileClassName_precedence _ _ _ _).2.2.1 (by decide) (by decide) (by decide),
    (C3_tileClassName_precedence _ _ _ _).2.2.2 (by decide) (by decide) (by decide)⟩

/-!
## Claim C4
-/

/-- C4: a Ctrl+click on a day that is in `jobDates` of the current job
list is rejected — the conflict alert (`BlackoutConflict`) is shown —
and the blackout list is returned unchanged, whatever it was. -/
theorem C4_blackout_conflict (jobs : List Job) (B : List JSDateKey)
    (d : JSDateKey) (h : d ∈ jobDates jobs) :
    handleBlackoutToggle true d (jobDates jobs) B =
      { blackoutDates := B, conflictAlert := true } := by
  simp [handleBlackoutToggle, h]

/-- Witness for `C4_blackout_conflict`: toggling the job day of a
concrete one-job list is rejected and leaves the (nonempty) blackout
list unchanged. -/
theorem C4_blackout_conflict_witness :
    handleBlackoutToggle true (JSDateKey.valid 2024 1 5) (jobDates [jobJan5])
      [JSDateKey.valid 2024 2 1] =
      { blackoutDates := [JSDateKey.valid 2024 2 1], conflictAlert := true } :=
  C4_blackout_conflict [jobJan5] [JSDateKey.valid 2024 2 1]
    (JSDateKey.valid 2024 1 5) (by decide)

/-!
## Claim C5
-/

/-- C5: on a day absent from `jobDates` of the current job list,
toggling twice returns the blackout set to its original value — the
resulting list has exactly the original membership.  (The list
representation can change order: removing re-adds at the end; as a
*set* the state is restored.) -/
theorem C5_toggle_toggle (jobs : List Job) (B : List JSDateKey)
    (d : JSDateKey) (h : d ∉ jobDates jobs) (x : JSDateKey) :
    (x ∈ (handleBlackoutToggle true d (jobDates jobs)
        (handleBlackoutToggle true d (jobDates jobs) B).blackoutDates).blackoutDates
      ↔ x ∈ B) := by
  by_cases hdB : d ∈ B
  · have h1 : (handleBlackoutToggle true d (jobDates jobs) B).blackoutDates
        = B.filter (fun e => decide (e ≠ d)) := by
      simp [handleBlackoutToggle, h, hdB]
    have h2 : d ∉ B.filter (fun e => decide (e ≠ d)) := by
      simp [List.mem_filter]
    have h3 : (handleBlackoutToggle true d (jobDates jobs)
        (B.filter (fun e => decide (e ≠ d)))).blackoutDates
          = B.filter (fun e => decide (e ≠ d)) ++ [d] := by
      simp [handleBlackoutToggle, h, h2]
    rw [h1, h3]
    simp only [List.mem_append, List.mem_filter, List.mem_singleton,
      decide_eq_true_eq]
    by_cases hx : x = d
    · subst hx; simp [hdB]
    · simp [hx]
  · have h1 : (handleBlackoutToggle true d (jobDates jobs) B).blackoutDates
        = B ++ [d] := by
      simp [handleBlackoutToggle, h, hdB]
    have h2 : d ∈ B ++ [d] := by simp
    have h3 : (handleBlackoutToggle true d (jobDates jobs)
        (B ++ [d])).blackoutDates
          = (B ++ [d]).filter (fun e => decide (e ≠ d)) := by
      simp [handleBlackoutToggle, h, h2]
    rw [h1, h3]
    simp only [List.mem_filter, List.mem_append, List.mem_singleton,
      decide_eq_true_eq]
    by_cases hx : x = d
    · subst hx; simp [hdB]
    · simp [hx]

/-- Witness for `C5_toggle_toggle`: double-toggling a concrete day on
the empty job list restores membership in a concrete blackout list. -/
theorem C5_toggle_toggle_witness :
    (JSDateKey.valid 2024 2 1 ∈ (handleBlackoutToggle true
        (JSDateKey.valid 2024 2 1) (jobDates [])
        (handleBlackoutToggle true (JSDateKey.valid 2024 2 1) (jobDates [])
          [JSDateKey.valid 2024 3 1]).blackoutDates).blackoutDates
      ↔ JSDateKey.valid 2024 2 1 ∈ [JSDateKey.valid 2024 3 1]) :=
  C5_toggle_toggle [] [JSDateKey.valid 2024 3 1] (JSDateKey.valid 2024 2 1)
    (by decide) (JSDateKey.valid 2024 2 1)

/-!
## Claim C6
-/

theorem jobsForSelectedDate_eq_filter (jobs : List Job) (k : JSDateKey) :
    jobsForSelectedDate jobs k
      = jobs.filter (fun j => decide (jobDateKey j = some k)) := by
  unfold jobsForSelectedDate jobDateKey
  congr 1
  funext j
  cases hd : j.date with
  | none => simp
  | some s => by_cases hs : s = [] <;> simp [hs]

/-- C6: for every job list and calendar day, `jobsForSelectedDate`
returns exactly the jobs whose parsed day key equals that day — the
result is the filter of the job list by that key (hence the original
relative order is preserved: the result is a sublist of the input), and
every returned job has a parsed (non-`null`, non-invalid) day key equal
to the selected day, so jobs whose date fails to parse appear for no
calendar day. -/
theorem C6_jobsForSelectedDate_exact (jobs : List Job) (y : Int)
    (mo dd : Nat) :
    jobsForSelectedDate jobs (JSDateKey.valid y mo dd)
      = jobs.filter (fun j => decide (jobDateKey j = some (JSDateKey.valid y mo dd))) ∧
    List.Sublist (jobsForSelectedDate jobs (JSDateKey.valid y mo dd)) jobs ∧
    ∀ j ∈ jobsForSelectedDate jobs (JSDateKey.valid y mo dd),
      jobDateKey j = some (JSDateKey.valid y mo dd) := by
  refine ⟨jobsForSelectedDate_eq_filter jobs _, ?_, ?_⟩
  · rw [jobsForSelectedDate_eq_filter jobs _]
    exact List.filter_sublist jobs
  · intro j hj
    rw [jobsForSelectedDate_eq_filter jobs _, List.mem_filter] at hj
    exact of_decide_eq_true hj.2

/-- Witness for `C6_jobsForSelectedDate_exact`: the concrete job dated
`"01/05/2024"` is selected for January 5, 2024 and its parsed key is
that day. -/
theorem C6_jobsForSelectedDate_witness :
    jobDateKey jobJan5 = some (JSDateKey.valid 2024 1 5) :=
  (C6_jobsForSelectedDate_exact [jobJan5] 2024 1 5).2.2 jobJan5 (by decide)

/-!
## Claim C7
-/

/-- C7: malformed input passes through both converters unchanged — an
empty or slash-free string is returned as-is by `formatDateForInput`,
and an empty or dash-free string is returned as-is by
`formatDateForStorage`. -/
theorem C7_passthrough (s : JStr) :
    ((s = [] ∨ '/' ∉ s) → formatDateForInput s = s) ∧
    ((s = [] ∨ '-' ∉ s) → formatDateForStorage s = s) := by
  refine ⟨fun h => ?_, fun h => ?_⟩
  · unfold formatDateForInput
    exact if_pos h
  · unfold formatDateForStorage
    exact if_pos h

/-- Witness for `C7_passthrough`: the slash- and dash-free string
`"abc"` and the empty string pass through both converters
unchanged. -/
theorem C7_passthrough_witness :
    formatDateForInput "abc".toList = "abc".toList ∧
    formatDateForStorage "abc".toList = "abc".toList ∧
    formatDateForInput [] = [] ∧
    formatDateForStorage [] = [] :=
  ⟨(C7_passthrough "abc".toList).1 (by decide),
    (C7_passthrough "abc".toList).2 (by decide),
    (C7_passthrough []).1 (Or.inl rfl),
    (C7_passthrough []).2 (Or.inl rfl)⟩

/-!
## Claim C8
-/

theorem strLt_iff_lex (a b : JStr) :
    strLt a b = true ↔ List.Lex (· < ·) a b := by
  induction a generalizing b with
  | nil =>
    cases b with
    | nil => simp [strLt]
    | cons c cs => simpa [strLt] using List.Lex.nil
  | cons a as ih =>
    cases b with
    | nil => simp [strLt]
    | cons b bs =>
      rcases lt_trichotomy a b with hab | hab | hab
      · simp only [strLt, if_pos hab]
        exact iff_of_true (by trivial) (List.Lex.rel hab)
      · subst hab
        simp only [strLt, lt_irrefl, if_false, List.Lex.cons_iff]
        exact ih bs
      · have h1 : ¬ a < b := asymm hab
        simp only [strLt, if_neg h1, if_pos hab]
        constructor
        · intro hfalse
          exact absurd hfalse (by simp)
        · intro hlex
          cases hlex with
          | cons h2 => exact absurd hab (lt_irrefl _)
          | rel h2 => exact absurd h2 h1

theorem strLe_iff_lex (a b : JStr) :
    strLe a b = true ↔ (List.Lex (· < ·) a b ∨ a = b) := by
  simp [strLe, strLt_iff_lex]

/-- A job named `"ab"`. -/
def jobAb : Job := sampleJob ['a', 'b'] none

/-- A job whose name is `"a"` followed by the sentinel character
U+F8FF. -/
def jobASentinel : Job := sampleJob ['a', sentinelChar] none

/-- C8 (amended): for every nonempty search input `p`, the predicate
sent to the store selects exactly the jobs whose name lies in the
*closed* lexicographic interval `[p, p + sentinel]` — `name >= p` and
`name <= p` followed by the sentinel character (the source uses `<=`,
not `<`, so the upper endpoint itself is selected; see the
counterexample against the half-open interval of the claim). -/
theorem C8_search_closed_interval (p : JStr) (jobs : List Job) (j : Job)
    (hp : p ≠ []) :
    j ∈ handleSearch p jobs ↔
      j ∈ jobs ∧ (List.Lex (· < ·) p j.name ∨ p = j.name) ∧
        (List.Lex (· < ·) j.name (p ++ [sentinelChar])
          ∨ j.name = p ++ [sentinelChar]) := by
  have hlen : 0 < p.length := List.length_pos.mpr hp
  rw [handleSearch, if_pos hlen, List.mem_filter]
  simp [searchMatches, strLe_iff_lex, and_assoc]

/-- C8, counterexample to the claim as stated: for the input `"a"`, a
job named exactly `"a" + sentinel` is selected by the store predicate
(the source upper bound is `<=`), although its name is *not* strictly
below `p + sentinel` — it lies outside the half-open interval
`[p, p + sentinel)` of the claim. -/
theorem C8_search_counterexample :
    jobASentinel ∈ handleSearch ['a'] [jobASentinel] ∧
    specSearchHalfOpen ['a'] jobASentinel.name = false ∧
    searchMatches ['a'] jobASentinel.name = true := by
  refine ⟨?_, by decide, by decide⟩
  simp [handleSearch, List.mem_filter, jobASentinel]
  decide

/-- Witness for `C8_search_closed_interval`: the concrete job named
`"ab"` and input `"a"`. -/
theorem C8_search_witness :
    jobAb ∈ handleSearch ['a'] [jobAb] ↔
      jobAb ∈ [jobAb] ∧ (List.Lex (· < ·) ['a'] jobAb.name ∨ ['a'] = jobAb.name) ∧
        (List.Lex (· < ·) jobAb.name (['a'] ++ [sentinelChar])
          ∨ jobAb.name = ['a'] ++ [sentinelChar]) :=
  C8_search_closed_interval ['a'] [jobAb] jobAb (by decide)

/-!
## Claim C9
-/

/-- C9: an imported CSV row stores `completed = true` exactly when the
row's `completed` column is the literal string `"true"`; any other
value — `"false"`, another casing such as `"True"`, or a missing
column — stores `completed = false`. -/
theorem C9_import_completed (freshId : JStr) (row : CsvRow) :
    ((importRow freshId row).completed = true ↔ row.completed = some trueLit) ∧
    (row.completed = none → (importRow freshId row).completed = false) := by
  constructor
  · simp [importRow]
  · intro h
    simp [importRow, h]

/-- A CSV row with only the `completed` column present. -/
def csvRowCompleted (c : Option JStr) : CsvRow :=
  { id := none, name := none, email := none, phone := none,
    address := none, info := none, price := none, date := none,
    completed := c }

/-- Witness for `C9_import_completed`: concrete rows with `completed`
column `"true"`, `"True"` and missing. -/
theorem C9_import_completed_witness :
    (importRow ['f'] (csvRowCompleted (some "true".toList))).completed = true ∧
    (importRow ['f'] (csvRowCompleted (some "True".toList))).completed = false ∧
    (importRow ['f'] (csvRowCompleted none)).completed = false :=
  ⟨(C9_import_completed ['f'] _).1.mpr (by decide),
    by decide,
    (C9_import_completed ['f'] _).2 rfl⟩

/-!
## Claim C10
-/

/-- C10: the record written by the edit-form submission carries
`completed` equal to the previously loaded job's `completed` value
(`false` when the field is absent), regardless of the submitted form
data: two submissions for the same selected job with arbitrary
different form data store the same `completed`. -/
theorem C10_completed_preserved (job : Job) (data data2 : EditFormData) :
    (onSubmitUpdate job data).completed = job.completed.getD false ∧
    (onSubmitUpdate job data).completed = (onSubmitUpdate job data2).completed :=
  ⟨rfl, rfl⟩
